import Mathlib

/-!
Shallow embedding of the Sentinel-AI adaptive mitigation core
(`src/model/app`): the mitigation engine state machine
(`mitigation_engine.py`), the sliding-window rate tracker (`app.py`),
the TTL cache (`performance_cache.py`), the online-learning feedback
buffer (`online_learning.py`) and the explanation generator
(`explainable_ai.py`).

Python dictionaries are modelled as insertion-ordered association
lists; Python floats as exact rationals; optional dictionary keys as
`Option` fields (a direct subscript access of a missing key is a
`KeyError`, modelled with `Except String`); the external SDN
controller as an oracle recording which calls the engine issues.
-/

namespace Sentinel

/-! ### Association lists standing for Python dicts -/

/-- Lookup in an insertion-ordered association list (`d[k]` / `d.get(k)`). -/
def dictGet {β : Type} : List (String × β) → String → Option β
  | [], _ => none
  | (k, v) :: rest, key => if k = key then some v else dictGet rest key

/-- Assignment `d[k] = v`: replaces in place when the key exists, appends otherwise. -/
def dictSet {β : Type} : List (String × β) → String → β → List (String × β)
  | [], key, v => [(key, v)]
  | (k, w) :: rest, key, v =>
      if k = key then (key, v) :: rest else (k, w) :: dictSet rest key v

/-- Deletion `del d[k]` (no-op when the key is absent). -/
def dictDel {β : Type} : List (String × β) → String → List (String × β)
  | [], _ => []
  | (k, w) :: rest, key => if k = key then rest else (k, w) :: dictDel rest key

/-! ### SDN controller oracle

`SDNController.block_ip` / `SDNController.unblock_ip`
(`sdn_controller.py`) perform retried HTTP calls and report success as
a `Bool`.  The embedding treats the controller as an oracle deciding
the outcome of each call and records every call the engine issues. -/

/-- A call issued to the SDN controller. -/
inductive SdnCall : Type
  | block (ip : String)
  | unblock (ip : String)
  deriving DecidableEq, Repr

/-- Outcome oracle for SDN-controller calls. -/
structure SdnOracle : Type where
  blockOk : String → Bool
  unblockOk : String → Bool

/-- An oracle on which every controller call succeeds. -/
def sdnAllOk : SdnOracle := ⟨fun _ => true, fun _ => true⟩

/-- An oracle on which every controller call fails. -/
def sdnAllFail : SdnOracle := ⟨fun _ => false, fun _ => false⟩

/-! ### Mitigation engine data model (`mitigation_engine.py`) -/

/-- One entry of `MitigationEngine.blocked_ips`.  `block_ip` fills every
field; `throttle_ip` writes only `timestamp`, `action`, the throttle
fraction, `slice_type` and `last_seen` — the remaining keys are absent
(`none`). -/
structure BlockedRecord : Type where
  timestamp : ℚ
  last_seen : ℚ
  confidence : Option ℚ := none
  packets_blocked : Option ℕ := none
  reason : Option String := none
  slice_type : Option String := none
  blocked_by : Option String := none
  action : Option String := none
  -- source key: the throttle fraction stored under the dict key for the ratio
  throttle_frac : Option ℚ := none
  deriving DecidableEq, Repr

/-- One entry of `MitigationEngine.mitigation_history`. -/
structure HistoryEntry : Type where
  timestamp : ℚ
  ip : String
  confidence : ℚ
  action : String
  slice : String
  threshold_used : ℚ
  deriving DecidableEq, Repr

/-- Mutable state owned by `MitigationEngine`. -/
structure EngineState : Type where
  blocked_ips : List (String × BlockedRecord)
  mitigation_history : List HistoryEntry
  deriving DecidableEq, Repr

/-- The engine state right after `MitigationEngine.__init__`. -/
def initState : EngineState := ⟨[], []⟩

/-- `config['block_duration']`. -/
def blockDuration : ℚ := 3600

/-- `config['max_history']`. -/
def maxHistory : ℕ := 1000

/-- `config['auto_unblock']`. -/
def autoUnblock : Bool := true

/-- `config['adaptive_threshold']`. -/
def adaptiveThreshold : Bool := true

/-- A slice policy row of `MitigationEngine.slice_policies`. -/
structure SlicePolicy : Type where
  block_threshold : ℚ
  throttle_threshold : ℚ
  priority : ℕ
  deriving DecidableEq, Repr

/-- `slice_policies.get(slice_type, slice_policies['eMBB'])`. -/
def slicePolicy (sliceType : String) : SlicePolicy :=
  if sliceType = "eMBB" then ⟨0.7, 0.5, 2⟩
  else if sliceType = "URLLC" then ⟨0.9, 0.6, 1⟩
  else if sliceType = "mMTC" then ⟨0.6, 0.4, 3⟩
  else if sliceType = "V2X" then ⟨0.95, 0.7, 1⟩
  else if sliceType = "IndustrialIoT" then ⟨0.8, 0.5, 2⟩
  else ⟨0.7, 0.5, 2⟩

/-- ASCII lowercase, standing for Python `str.lower()` on the ASCII
strings this code base compares. -/
def strLower (s : String) : String := String.mk (s.data.map Char.toLower)

/-- Classifier output consumed by `execute_mitigation`
(`detection_result.get('prediction', '')`, `.get('confidence', 0.0)`). -/
structure Detection : Type where
  prediction : Option String := none
  confidence : Option ℚ := none

/-- Flow metadata consumed by `execute_mitigation`
(`flow_info.get('src_ip', 'unknown')`, `.get('network_load', 0.5)`). -/
structure FlowInfo : Type where
  src_ip : Option String := none
  network_load : Option ℚ := none

/-- The three shapes of dictionary `execute_mitigation` returns. -/
inductive MitigationResult : Type
  /-- `{"status": "error", "message": ..., "mitigation_applied": False}`. -/
  | invalid (message : String)
  /-- `{"status": "already_blocked", "ip", "since", "packets_blocked",
  "mitigation_applied": False}`. -/
  | alreadyBlocked (ip : String) (since : ℚ) (packets_blocked : ℕ)
  /-- The ordinary decision result dictionary. -/
  | decision (status : String) (ip : String) (confidence : ℚ)
      (action : Option String) (slice : String) (threshold_used : ℚ)
      (mitigation_applied : Bool)
  deriving DecidableEq, Repr

/-- `MitigationEngine.is_ip_blocked`: when the identity is present, set
its `last_seen` to now and increment `packets_blocked`; the increment
is a `KeyError` when the record (created by `throttle_ip`) has no such
key. -/
def is_ip_blocked (now : ℚ) (s : EngineState) (ip : String) :
    Except String (Bool × EngineState) :=
  match dictGet s.blocked_ips ip with
  | some r0 =>
      match r0.packets_blocked with
      | some n =>
          let r1 := { r0 with last_seen := now, packets_blocked := some (n + 1) }
          Except.ok (true, { s with blocked_ips := dictSet s.blocked_ips ip r1 })
      | none => Except.error "KeyError: packets_blocked"
  | none => Except.ok (false, s)

/-- `MitigationEngine.block_ip`: refuse falsy or placeholder identities
without contacting the controller; otherwise issue the SDN block call
and persist the full record only on success. -/
def block_ip (env : SdnOracle) (now : ℚ) (s : EngineState)
    (ip : String) (reason : String) (confidence : ℚ) (sliceType : String) :
    Bool × EngineState × List SdnCall :=
  if ip = "" ∨ ip = "0.0.0.0" ∨ ip = "unknown" then
    (false, s, [])
  else
    let success := env.blockOk ip
    let newRecord : BlockedRecord :=
      { timestamp := now
        confidence := some confidence
        packets_blocked := some 0
        reason := some reason
        last_seen := now
        slice_type := some sliceType
        blocked_by := some "engine" }
    if success then
      (true, { s with blocked_ips := dictSet s.blocked_ips ip newRecord },
       [SdnCall.block ip])
    else
      (false, s, [SdnCall.block ip])

/-- `MitigationEngine.throttle_ip`: no controller interaction — success
is simulated (`success = True`) and a record carrying only the
throttle fields is always persisted. -/
def throttle_ip (now : ℚ) (s : EngineState)
    (ip : String) (sliceType : String) (ratio : ℚ) :
    Bool × EngineState :=
  let success := true
  let newRecord : BlockedRecord :=
    { timestamp := now
      action := some "throttled"
      throttle_frac := some ratio
      slice_type := some sliceType
      last_seen := now }
  if success then
    (true, { s with blocked_ips := dictSet s.blocked_ips ip newRecord })
  else
    (false, s)

/-- `MitigationEngine.unblock_ip`: absent identity is a `False` no-op;
a record whose `action` defaults to `'blocked'` goes through the SDN
controller and is deleted only on success; any other `action` is
deleted locally with simulated success. -/
def unblock_ip (env : SdnOracle) (s : EngineState) (ip : String) :
    Bool × EngineState × List SdnCall :=
  match dictGet s.blocked_ips ip with
  | none => (false, s, [])
  | some r0 =>
      let action := r0.action.getD "blocked"
      if action = "blocked" then
        let success := env.unblockOk ip
        if success then
          (true, { s with blocked_ips := dictDel s.blocked_ips ip }, [SdnCall.unblock ip])
        else
          (false, s, [SdnCall.unblock ip])
      else
        (true, { s with blocked_ips := dictDel s.blocked_ips ip }, [])

/-- The effective thresholds used by `execute_mitigation` after the
adaptive high-load adjustment. -/
def effectiveThresholds (sliceType : String) (networkLoad : Option ℚ) : ℚ × ℚ :=
  let policy := slicePolicy sliceType
  let bt := policy.block_threshold
  let tt := policy.throttle_threshold
  if adaptiveThreshold then
    let load := networkLoad.getD 0.5
    if load > 0.8 then (bt * 0.9, tt * 0.8) else (bt, tt)
  else (bt, tt)

/-- `MitigationEngine.execute_mitigation`: invalid-identity guard,
already-blocked short circuit, then the BLOCK / THROTTLE / MONITOR
decision ladder with slice-aware adaptive thresholds, history append,
and the result dictionary. -/
def execute_mitigation (env : SdnOracle) (now : ℚ) (s : EngineState)
    (detection : Detection) (flow : FlowInfo) (sliceType : String) :
    Except String (MitigationResult × EngineState × List SdnCall) := do
  let srcIp := flow.src_ip.getD "unknown"
  if srcIp = "unknown" ∨ srcIp = "0.0.0.0" then
    return (MitigationResult.invalid "Invalid IP", s, [])
  let (blocked, s1) ← is_ip_blocked now s srcIp
  if blocked then
    match dictGet s1.blocked_ips srcIp with
    | some r0 =>
        match r0.packets_blocked with
        | some n => return (MitigationResult.alreadyBlocked srcIp r0.timestamp n, s1, [])
        | none => Except.error "KeyError: packets_blocked"
    | none => Except.error "KeyError: record vanished"
  else
    let isDdos := strLower (detection.prediction.getD "") = "ddos"
    let confidence := detection.confidence.getD 0
    let (blockThreshold, throttleThreshold) :=
      effectiveThresholds sliceType flow.network_load
    let step : Option String × Bool × EngineState × List SdnCall :=
      if isDdos ∧ confidence ≥ blockThreshold then
        let reason := "DDoS detected"
        let (ok, s2, calls) := block_ip env now s1 srcIp reason confidence sliceType
        if ok then (some "BLOCKED", true, s2, calls) else (none, false, s2, calls)
      else if isDdos ∧ confidence ≥ throttleThreshold then
        let (ok, s2) := throttle_ip now s1 srcIp sliceType 0.5
        if ok then (some "THROTTLED", true, s2, []) else (none, false, s2, [])
      else if confidence ≥ throttleThreshold * 0.8 then
        (some "MONITOR", false, s1, [])
      else
        (none, false, s1, [])
    let (mitigationAction, mitigationApplied, s3, calls) := step
    let s4 :=
      match mitigationAction with
      | some act =>
          { s3 with mitigation_history :=
              s3.mitigation_history ++
                [{ timestamp := now
                   ip := srcIp
                   confidence := confidence
                   action := act
                   slice := sliceType
                   threshold_used :=
                     if act = "BLOCKED" then blockThreshold else throttleThreshold }] }
      | none => s3
    return (MitigationResult.decision
              (strLower (mitigationAction.getD "normal"))
              srcIp confidence mitigationAction sliceType
              (if mitigationAction = some "BLOCKED" then blockThreshold
               else throttleThreshold)
              mitigationApplied,
            s4, calls)

/-- View row produced by `MitigationEngine.get_blocked_ips`; the direct
subscripts `d["reason"]`, `d["confidence"]`, `d["packets_blocked"]`
are `KeyError`s on records missing those keys. -/
structure BlockedView : Type where
  ip : String
  timestamp : ℚ
  reason : String
  confidence : ℚ
  packets_blocked : ℕ
  last_seen : ℚ
  slice_type : String
  action : String
  deriving DecidableEq, Repr

/-- One row of the `get_blocked_ips` list comprehension. -/
def blockedViewRow (kv : String × BlockedRecord) : Except String BlockedView := do
  let r0 := kv.2
  let reason ← match r0.reason with
    | some r => Except.ok r
    | none => Except.error "KeyError: reason"
  let confidence ← match r0.confidence with
    | some c => Except.ok c
    | none => Except.error "KeyError: confidence"
  let packets ← match r0.packets_blocked with
    | some p => Except.ok p
    | none => Except.error "KeyError: packets_blocked"
  Except.ok
    { ip := kv.1
      timestamp := r0.timestamp
      reason := reason
      confidence := confidence
      packets_blocked := packets
      last_seen := r0.last_seen
      slice_type := r0.slice_type.getD "unknown"
      action := r0.action.getD "blocked" }

/-- The list comprehension of `get_blocked_ips`, row by row; the first
row that hits a missing key aborts the whole call with its `KeyError`. -/
def blockedViewRows : List (String × BlockedRecord) → Except String (List BlockedView)
  | [] => Except.ok []
  | kv :: rest => do
      let v ← blockedViewRow kv
      let vs ← blockedViewRows rest
      Except.ok (v :: vs)

/-- `MitigationEngine.get_blocked_ips`. -/
def get_blocked_ips (s : EngineState) : Except String (List BlockedView) :=
  blockedViewRows s.blocked_ips

/-- `MitigationEngine._cleanup_expired_blocks`: auto-unblock every
record older than `block_duration`, then truncate the history to its
most recent `max_history` entries when it exceeds the cap. -/
def cleanup_expired_blocks (env : SdnOracle) (now : ℚ) (s : EngineState) :
    EngineState × List SdnCall :=
  let expired := (s.blocked_ips.filter
    (fun kv => decide (now - kv.2.timestamp > blockDuration) && autoUnblock)).map Prod.fst
  let step := expired.foldl
    (fun acc ip =>
      let (_, s', calls) := unblock_ip env acc.1 ip
      (s', acc.2 ++ calls))
    (s, ([] : List SdnCall))
  let s' := step.1
  let hist :=
    if s'.mitigation_history.length > maxHistory then
      s'.mitigation_history.drop (s'.mitigation_history.length - maxHistory)
    else s'.mitigation_history
  ({ s' with mitigation_history := hist }, step.2)

/-! ### RateTracker (`app.py`)

`add(src_ip, ts)` appends `ts` to the identity's deque and pops stale
entries from the front while `ts - q[0] > window`; `pps(src_ip)`
returns `len(q) / window`, `0.0` for an empty deque.  The `defaultdict`
is modelled by reading an absent identity as the empty list. -/

/-- State of `RateTracker`: the window and the per-identity deques. -/
structure RateTracker : Type where
  window : ℚ
  timestamps : List (String × List ℚ)

/-- A fresh `RateTracker(window=w)`. -/
def RateTracker.mk0 (w : ℚ) : RateTracker := ⟨w, []⟩

/-- The deque held for an identity (empty when unseen). -/
def RateTracker.deq (tr : RateTracker) (ip : String) : List ℚ :=
  (dictGet tr.timestamps ip).getD []

/-- `RateTracker.add`. -/
def RateTracker.add (tr : RateTracker) (ip : String) (ts : ℚ) : RateTracker :=
  let q := tr.deq ip ++ [ts]
  let q := q.dropWhile (fun t0 => decide (ts - t0 > tr.window))
  { tr with timestamps := dictSet tr.timestamps ip q }

/-- `RateTracker.pps`. -/
def RateTracker.pps (tr : RateTracker) (ip : String) : ℚ :=
  let q := tr.deq ip
  if q.isEmpty then 0 else (q.length : ℚ) / tr.window

/-- Feed a whole sequence of timestamps for one identity. -/
def RateTracker.addAll (tr : RateTracker) (ip : String) (l : List ℚ) : RateTracker :=
  l.foldl (fun t ts => t.add ip ts) tr

/-- Spec-side count: how many of the recorded timestamps lie in the
trailing window `[last - w, last]` of the latest recorded timestamp. -/
def specWindowCount (w : ℚ) (l : List ℚ) : ℕ :=
  match l.getLast? with
  | none => 0
  | some last => (l.filter (fun t => decide (last - t ≤ w) && decide (t ≤ last))).length

/-- The timestamps of a recorded sequence that survive pruning against
its final timestamp: empty for an empty sequence, otherwise those
within `w` below the last recorded timestamp. -/
def winFilter (w : ℚ) (l : List ℚ) : List ℚ :=
  match l.getLast? with
  | none => []
  | some last => l.filter (fun t => decide (last - t ≤ w))

/-! ### PerformanceCache (`performance_cache.py`)

`cache` and `access_times` are two dicts updated in lockstep on every
write path, so the embedding stores one association list of
(value, access-time) pairs. -/

/-- State of `PerformanceCache` for values of type `V`. -/
structure PerformanceCache (V : Type) : Type where
  items : List (String × V × ℚ)
  max_size : ℕ
  ttl : ℚ

/-- A fresh `PerformanceCache(max_size, ttl)`. -/
def PerformanceCache.mk0 (V : Type) (maxSize : ℕ) (ttl : ℚ) : PerformanceCache V :=
  ⟨[], maxSize, ttl⟩

/-- `PerformanceCache.get`: a hit within `ttl` of the stored access
time returns the value and leaves the state unchanged (the stored
access time is not refreshed); a stale hit deletes the entry and
returns `None`. -/
def PerformanceCache.get {V : Type} (c : PerformanceCache V) (now : ℚ) (key : String) :
    Option V × PerformanceCache V :=
  match dictGet c.items key with
  | none => (none, c)
  | some (v, accessTime) =>
      if now - accessTime < c.ttl then (some v, c)
      else (none, { c with items := dictDel c.items key })

/-- The first key holding the minimal access time (`min(access_times.keys(),
key=...)` — Python `min` keeps the earliest tie in iteration order). -/
def PerformanceCache.oldestKey {V : Type} (items : List (String × V × ℚ)) :
    Option String :=
  items.foldl
    (fun best kv =>
      match best with
      | none => some (kv.1, kv.2.2)
      | some (k0, t0) => if kv.2.2 < t0 then some (kv.1, kv.2.2) else some (k0, t0))
    none
  |>.map Prod.fst

/-- `PerformanceCache.set`: evict the least-recently-written entry when
at capacity, then store the value with access time `now`. -/
def PerformanceCache.set {V : Type} (c : PerformanceCache V) (now : ℚ)
    (key : String) (v : V) : PerformanceCache V :=
  let c1 :=
    if c.items.length ≥ c.max_size then
      match PerformanceCache.oldestKey c.items with
      | some k0 => { c with items := dictDel c.items k0 }
      | none => c
    else c
  { c1 with items := dictSet c1.items key (v, now) }

/-! ### OnlineLearningEngine (`online_learning.py`) -/

/-- One element of `feedback_buffer`. -/
structure FeedbackItem : Type where
  features : List ℚ
  true_label : ℕ
  predicted_label : ℕ
  confidence : ℚ
  correct : Bool
  recorded_at : ℚ
  deriving DecidableEq, Repr

/-- Constructor parameters of `OnlineLearningEngine`. -/
structure FeedbackConfig : Type where
  feedback_window : ℕ
  retrain_threshold : ℕ

/-- Mutable state of `OnlineLearningEngine`. -/
structure OnlineLearningState : Type where
  feedback_buffer : List FeedbackItem
  correct_predictions : ℕ
  total_predictions : ℕ
  model_accuracy : ℚ
  deriving DecidableEq, Repr

/-- State right after `OnlineLearningEngine.__init__`. -/
def onlineLearningInit : OnlineLearningState := ⟨[], 0, 0, 0⟩

/-- `OnlineLearningEngine.add_feedback`: append to the bounded deque
(`maxlen = feedback_window` drops the oldest), update the all-time
accuracy counters, and spawn the retrain thread whenever the buffer
size has reached `retrain_threshold`.  The returned `Bool` records
whether the retrain trigger fired on this call. -/
def add_feedback (cfg : FeedbackConfig) (s : OnlineLearningState)
    (features : List ℚ) (trueLabel predictedLabel : ℕ) (confidence : ℚ)
    (now : ℚ) : OnlineLearningState × Bool :=
  let item : FeedbackItem :=
    { features := features
      true_label := trueLabel
      predicted_label := predictedLabel
      confidence := confidence
      correct := trueLabel == predictedLabel
      recorded_at := now }
  let buf := s.feedback_buffer ++ [item]
  let buf := if buf.length > cfg.feedback_window
             then buf.drop (buf.length - cfg.feedback_window) else buf
  let total := s.total_predictions + 1
  let correct := if trueLabel == predictedLabel
                 then s.correct_predictions + 1 else s.correct_predictions
  let s' : OnlineLearningState :=
    { feedback_buffer := buf
      correct_predictions := correct
      total_predictions := total
      model_accuracy := (correct : ℚ) / (max total 1 : ℕ) }
  (s', decide (buf.length ≥ cfg.retrain_threshold))

/-- Fold a batch of identical feedback samples, counting how many of
the calls fired the retrain trigger. -/
def addFeedbackRun (cfg : FeedbackConfig) (n : ℕ) : OnlineLearningState × ℕ :=
  (List.range n).foldl
    (fun acc _ =>
      let (s', fired) := add_feedback cfg acc.1 [1] 1 1 0.9 0
      (s', acc.2 + (if fired then 1 else 0)))
    (onlineLearningInit, 0)

/-! ### DDoSExplainer (`explainable_ai.py`) -/

/-- Substring test standing for Python's `needle in haystack`. -/
def strContains (haystack needle : String) : Bool :=
  decide (needle.toList <:+: haystack.toList)

/-- One element of the `contributions` list built by
`DDoSExplainer.explain_prediction`. -/
structure Contribution : Type where
  feature : String
  value : ℚ
  importance : ℚ
  contribution : ℚ
  normalized_contribution : ℚ
  deriving DecidableEq, Repr

/-- Sum of the `contribution` fields of a list
(`sum([c['contribution'] for c in contributions])`). -/
def sumContribs (l : List Contribution) : ℚ :=
  (l.map Contribution.contribution).sum

/-- The raw contribution of one feature: importance weight times a
magnitude rule chosen by feature-name category. -/
def rawContribution (importance : ℚ) (featureName : String) (v : ℚ) : ℚ :=
  if strContains (strLower featureName) "packet" ∧ |v| > 2 then importance * |v|
  else if strContains (strLower featureName) "rate" ∧ v > 1 then importance * v
  else if strContains (strLower featureName) "entropy" ∧ v > 0.5 then importance * v
  else importance * 0.1

/-- The contribution-building loop of `explain_prediction`, carrying
the list built so far exactly as the Python loop appends to
`contributions` and normalizes against its current sum. -/
def buildContributions (imp : String → Option ℚ) :
    List Contribution → List (String × ℚ) → List Contribution
  | acc, [] => acc
  | acc, (featureName, v) :: rest =>
      let importance := (imp featureName).getD 0.01
      let contribution := rawContribution importance featureName v
      let item : Contribution :=
        { feature := featureName
          value := v
          importance := importance
          contribution := contribution
          normalized_contribution :=
            contribution / max (sumContribs acc + contribution) 0.01 }
      buildContributions imp (acc ++ [item]) rest

/-- The `contributions` list of `explain_prediction` before the final
sort: the loop runs over `zip(feature_names, features_scaled)`. -/
def explainContributions (imp : String → Option ℚ)
    (featureNames : List String) (featuresScaled : List ℚ) : List Contribution :=
  buildContributions imp [] (featureNames.zip featuresScaled)

/-- Sum-carrying reformulation of the same loop, used to reason about
the running partial sum. -/
def buildContributionsSum (imp : String → Option ℚ) :
    ℚ → List (String × ℚ) → List Contribution
  | _, [] => []
  | sumSoFar, (featureName, v) :: rest =>
      let importance := (imp featureName).getD 0.01
      let contribution := rawContribution importance featureName v
      { feature := featureName
        value := v
        importance := importance
        contribution := contribution
        normalized_contribution :=
          contribution / max (sumSoFar + contribution) 0.01 } ::
        buildContributionsSum imp (sumSoFar + contribution) rest

/-! ### Concrete states used by witnesses and counterexamples -/

/-- The engine state holding exactly one record created by `throttle_ip`. -/
def throttledState : EngineState :=
  (throttle_ip 100 initState "1.2.3.4" "eMBB" 0.5).2

/-- The record `throttle_ip 100 ... "1.2.3.4" "eMBB" 0.5` stores. -/
def throttledRecord : BlockedRecord :=
  { timestamp := 100
    action := some "throttled"
    throttle_frac := some 0.5
    slice_type := some "eMBB"
    last_seen := 100 }

/-- The engine state holding exactly one record created by `block_ip`. -/
def blockedState : EngineState :=
  (block_ip sdnAllOk 100 initState "5.5.5.5" "threat" 0.95 "eMBB").2.1

/-- The record `block_ip sdnAllOk 100 ... "5.5.5.5" "threat" 0.95 "eMBB"` stores. -/
def blockedRecord : BlockedRecord :=
  { timestamp := 100
    confidence := some 0.95
    packets_blocked := some 0
    reason := some "threat"
    last_seen := 100
    slice_type := some "eMBB"
    blocked_by := some "engine" }

/-- One MONITOR-path decision call used to pump the history log: a
benign 0.5-confidence event from `9.9.9.9` on the default slice
appends one history entry and touches nothing else. -/
def monitorStep (s : EngineState) : EngineState :=
  match execute_mitigation sdnAllOk 0 s
      { prediction := some "benign", confidence := some 0.5 }
      { src_ip := some "9.9.9.9" } "eMBB" with
  | Except.ok x => x.2.1
  | Except.error _ => s

/-! ### Lemmas about association lists -/

theorem dictGet_dictSet_self {β : Type} (d : List (String × β)) (k : String) (v : β) :
    dictGet (dictSet d k v) k = some v := by
  induction d with
  | nil => simp [dictSet, dictGet]
  | cons hd tl ih =>
      obtain ⟨k0, v0⟩ := hd
      by_cases h : k0 = k
      · simp [dictSet, dictGet, h]
      · simp [dictSet, dictGet, h, ih]

theorem dictGet_dictSet_ne {β : Type} (d : List (String × β)) (k k' : String) (v : β)
    (h : k ≠ k') : dictGet (dictSet d k v) k' = dictGet d k' := by
  induction d with
  | nil => simp [dictSet, dictGet, h]
  | cons hd tl ih =>
      obtain ⟨k0, v0⟩ := hd
      by_cases h0 : k0 = k
      · subst h0
        simp [dictSet, dictGet, h]
      · simp [dictSet, dictGet, h0, ih]

/-! ### Helper lemmas about the engine -/

theorem is_ip_blocked_of_counter (now : ℚ) (s : EngineState) (ip : String)
    (r : BlockedRecord) (n : ℕ)
    (hrec : dictGet s.blocked_ips ip = some r)
    (hp : r.packets_blocked = some n) :
    is_ip_blocked now s ip =
      Except.ok (true,
        { s with blocked_ips :=
            (dictSet s.blocked_ips ip
              { r with last_seen := now, packets_blocked := some (n + 1) }) }) := by
  simp [is_ip_blocked, hrec, hp]

theorem is_ip_blocked_of_no_counter (now : ℚ) (s : EngineState) (ip : String)
    (r : BlockedRecord)
    (hrec : dictGet s.blocked_ips ip = some r)
    (hp : r.packets_blocked = none) :
    is_ip_blocked now s ip = Except.error "KeyError: packets_blocked" := by
  simp [is_ip_blocked, hrec, hp]

theorem is_ip_blocked_of_absent (now : ℚ) (s : EngineState) (ip : String)
    (hrec : dictGet s.blocked_ips ip = none) :
    is_ip_blocked now s ip = Except.ok (false, s) := by
  simp [is_ip_blocked, hrec]

/-- A decision call on an identity whose active record lacks the
`packets_blocked` counter (the shape `throttle_ip` creates) aborts with
the `KeyError` raised inside `is_ip_blocked`. -/
theorem execute_mitigation_keyerror (env : SdnOracle) (now : ℚ) (s : EngineState)
    (det : Detection) (flow : FlowInfo) (sliceType ip : String) (r : BlockedRecord)
    (hip : flow.src_ip = some ip)
    (hvalid : ¬(ip = "unknown" ∨ ip = "0.0.0.0"))
    (hrec : dictGet s.blocked_ips ip = some r)
    (hp : r.packets_blocked = none) :
    execute_mitigation env now s det flow sliceType =
      Except.error "KeyError: packets_blocked" := by
  simp [execute_mitigation, hip, hvalid,
    is_ip_blocked_of_no_counter now s ip r hrec hp, Bind.bind, Except.bind,
    pure, Except.pure]

/-! ### C10 — unblock behaviour by record provenance -/

/-- C10: `unblock_ip` issues an SDN-controller removal call if and only
if the active record's `action` key is absent or equals `'blocked'`
(the shape `block_ip` creates); a record with any other `action` (the
shape `throttle_ip` creates) is deleted locally, returning `true`, with
no controller interaction; an identity with no active record yields
`false` and leaves all state unchanged. -/
theorem c10_unblock_controller_call_iff (env : SdnOracle) (s : EngineState) (ip : String) :
    ((unblock_ip env s ip).2.2 ≠ [] ↔
      ∃ r, dictGet s.blocked_ips ip = some r ∧
        (r.action = none ∨ r.action = some "blocked"))
    ∧ (∀ r, dictGet s.blocked_ips ip = some r →
        (r.action = none ∨ r.action = some "blocked") →
        (unblock_ip env s ip).2.2 = [SdnCall.unblock ip])
    ∧ (∀ r a, dictGet s.blocked_ips ip = some r → r.action = some a →
        a ≠ "blocked" →
        unblock_ip env s ip =
          (true, { s with blocked_ips := dictDel s.blocked_ips ip }, []))
    ∧ (dictGet s.blocked_ips ip = none → unblock_ip env s ip = (false, s, [])) := by
  refine ⟨?_, ?_, ?_, ?_⟩
  · constructor
    · intro hcalls
      match hb : dictGet s.blocked_ips ip with
      | none => simp [unblock_ip, hb] at hcalls
      | some r =>
          refine ⟨r, rfl, ?_⟩
          match ha : r.action with
          | none => exact Or.inl rfl
          | some a =>
              by_cases hblk : a = "blocked"
              · exact Or.inr (hblk ▸ ha ▸ rfl)
              · exfalso
                apply hcalls
                simp [unblock_ip, hb, ha, Option.getD, hblk]
    · rintro ⟨r, hb, hact⟩
      rcases hact with ha | ha <;>
        · cases henv : env.unblockOk ip <;>
            simp [unblock_ip, hb, ha, Option.getD, henv]
  · intro r hb hact
    rcases hact with ha | ha <;>
      · cases henv : env.unblockOk ip <;>
          simp [unblock_ip, hb, ha, Option.getD, henv]
  · intro r a hb ha hblk
    simp [unblock_ip, hb, ha, Option.getD, hblk]
  · intro hb
    simp [unblock_ip, hb]

/-- Witness for C10: a throttled record is removed locally with no
controller call, and an unknown identity is a `False` no-op. -/
theorem c10_witness :
    unblock_ip sdnAllOk throttledState "1.2.3.4" =
      (true, { throttledState with
                 blocked_ips := dictDel throttledState.blocked_ips "1.2.3.4" }, [])
    ∧ unblock_ip sdnAllOk initState "1.2.3.4" = (false, initState, []) := by
  constructor
  · exact (c10_unblock_controller_call_iff sdnAllOk throttledState "1.2.3.4").2.2.1
      throttledRecord "throttled" (by rfl) (by rfl) (by decide)
  · exact (c10_unblock_controller_call_iff sdnAllOk initState "1.2.3.4").2.2.2 (by rfl)

/-! ### C1 — short circuit on an active record -/

/-- C1 counterexample: an identity holding an active THROTTLED record
does not short-circuit to a status result at all — the next
`execute_mitigation` call for it aborts with a `KeyError`, so no
`already_throttled` status exists. -/
theorem c1_counterexample :
    execute_mitigation sdnAllOk 200 throttledState
      { prediction := some "DDoS", confidence := some 0.99 }
      { src_ip := some "1.2.3.4" } "eMBB" =
      Except.error "KeyError: packets_blocked" := by
  have hip : ¬("1.2.3.4" = "unknown" ∨ "1.2.3.4" = "0.0.0.0") := by decide
  simp [execute_mitigation, is_ip_blocked, throttledState, throttle_ip, initState,
    dictGet, dictSet, hip, Bind.bind, Except.bind, pure, Except.pure]

/-- C1 (amended): an identity with an active record carrying the
`packets_blocked` counter (the shape `block_ip` creates) short-circuits
to `already_blocked`, bumps `last_seen` to now and the counter by one,
and issues no SDN call; an active record without the counter (the
shape `throttle_ip` creates) instead raises `KeyError`. -/
theorem c1_short_circuit (env : SdnOracle) (now : ℚ) (s : EngineState)
    (det : Detection) (flow : FlowInfo) (sliceType ip : String) (r : BlockedRecord)
    (hip : flow.src_ip = some ip)
    (hvalid : ¬(ip = "unknown" ∨ ip = "0.0.0.0"))
    (hrec : dictGet s.blocked_ips ip = some r) :
    (∀ n, r.packets_blocked = some n →
      execute_mitigation env now s det flow sliceType =
        Except.ok (MitigationResult.alreadyBlocked ip r.timestamp (n + 1),
          { s with blocked_ips :=
              (dictSet s.blocked_ips ip
                { r with last_seen := now, packets_blocked := some (n + 1) }) },
          []))
    ∧ (r.packets_blocked = none →
        execute_mitigation env now s det flow sliceType =
          Except.error "KeyError: packets_blocked") := by
  constructor
  · intro n hp
    simp [execute_mitigation, hip, hvalid,
      is_ip_blocked_of_counter now s ip r n hrec hp, Bind.bind, Except.bind,
      pure, Except.pure, dictGet_dictSet_self]
  · intro hp
    exact execute_mitigation_keyerror env now s det flow sliceType ip r hip hvalid hrec hp

/-- Witness for C1: a second event for an identity blocked at time 100
returns `already_blocked` with the counter bumped to 1 and issues no
SDN call. -/
theorem c1_witness :
    execute_mitigation sdnAllOk 200 blockedState
      { prediction := some "DDoS", confidence := some 0.99 }
      { src_ip := some "5.5.5.5" } "eMBB" =
      Except.ok (MitigationResult.alreadyBlocked "5.5.5.5" 100 1,
        { blockedState with blocked_ips :=
            (dictSet blockedState.blocked_ips "5.5.5.5"
              { blockedRecord with last_seen := 200, packets_blocked := some 1 }) },
        []) :=
  (c1_short_circuit sdnAllOk 200 blockedState
      { prediction := some "DDoS", confidence := some 0.99 }
      { src_ip := some "5.5.5.5" } "eMBB" "5.5.5.5" blockedRecord
      rfl (by decide) (by rfl)).1 0 rfl

/-! ### C2 — failed block leaves no partial state -/

/-- C2: when the decision resolves to BLOCK (threat label and
confidence at or above the effective block threshold) and the SDN
install call fails, no record is created, no history entry is
appended, the state is returned unchanged, and the result reports the
decision as not applied (status `normal`, `mitigation_applied` false)
while the single failed install call is visible. -/
theorem c2_block_failure_no_partial_state (env : SdnOracle) (now : ℚ)
    (s : EngineState) (det : Detection) (flow : FlowInfo) (sliceType ip : String)
    (hip : flow.src_ip = some ip)
    (hvalid : ¬(ip = "unknown" ∨ ip = "0.0.0.0")) (hnz : ¬ip = "")
    (habs : dictGet s.blocked_ips ip = none)
    (hddos : strLower (det.prediction.getD "") = "ddos")
    (hconf : det.confidence.getD 0 ≥ (effectiveThresholds sliceType flow.network_load).1)
    (henv : env.blockOk ip = false) :
    execute_mitigation env now s det flow sliceType =
      Except.ok (MitigationResult.decision "normal" ip (det.confidence.getD 0) none
          sliceType (effectiveThresholds sliceType flow.network_load).2 false,
        s, [SdnCall.block ip]) := by
  have hvalid1 : ¬(ip = "" ∨ ip = "0.0.0.0" ∨ ip = "unknown") := by
    push_neg at hvalid ⊢
    exact ⟨hnz, hvalid.2, hvalid.1⟩
  have hlow : strLower "normal" = "normal" := by decide
  simp [execute_mitigation, hip, hvalid,
    is_ip_blocked_of_absent now s ip habs, Bind.bind, Except.bind,
    pure, Except.pure, hddos, hconf, block_ip, hvalid1, henv, hlow]

/-- Witness for C2: a concrete 0.95-confidence threat on the default
slice with a failing controller leaves the fresh engine state exactly
as it was and reports `normal` with one failed install call. -/
theorem c2_witness :
    execute_mitigation sdnAllFail 100 initState
      { prediction := some "DDoS", confidence := some 0.95 }
      { src_ip := some "6.6.6.6" } "eMBB" =
      Except.ok (MitigationResult.decision "normal" "6.6.6.6" 0.95 none
          "eMBB" 0.5 false,
        initState, [SdnCall.block "6.6.6.6"]) := by
  have h := c2_block_failure_no_partial_state sdnAllFail 100 initState
    { prediction := some "DDoS", confidence := some 0.95 }
    { src_ip := some "6.6.6.6" } "eMBB" "6.6.6.6"
    rfl (by decide) (by decide) (by rfl) (by decide)
    (by norm_num [effectiveThresholds, slicePolicy, adaptiveThreshold]) rfl
  have ht : (effectiveThresholds "eMBB" (FlowInfo.network_load
      { src_ip := some "6.6.6.6" })).2 = 0.5 := by
    norm_num [effectiveThresholds, slicePolicy, adaptiveThreshold]
  rw [h, ht]
  rfl

/-! ### C3 — throttle path never contacts the gateway -/

/-- C3 counterexample: on the THROTTLE path the engine persists the
record and reports success with an oracle on which every controller
call fails and with an empty list of issued SDN calls — no enforcement
install call is made at all, so persistence is not conditioned on
enforcement success. -/
theorem c3_counterexample :
    execute_mitigation sdnAllFail 100 initState
      { prediction := some "ddos", confidence := some 0.6 }
      { src_ip := some "9.9.9.9" } "eMBB" =
      Except.ok
        (MitigationResult.decision "throttled" "9.9.9.9" 0.6 (some "THROTTLED")
          "eMBB" 0.5 true,
         { blocked_ips :=
             [("9.9.9.9",
               { timestamp := 100
                 action := some "throttled"
                 throttle_frac := some 0.5
                 slice_type := some "eMBB"
                 last_seen := 100 })]
           mitigation_history :=
             [{ timestamp := 100
                ip := "9.9.9.9"
                confidence := 0.6
                action := "THROTTLED"
                slice := "eMBB"
                threshold_used := 0.5 }] },
         []) := by
  have hdd : strLower "ddos" = "ddos" := by decide
  have hth : strLower "THROTTLED" = "throttled" := by decide
  have hip : ¬("9.9.9.9" = "unknown" ∨ "9.9.9.9" = "0.0.0.0") := by decide
  have hne : ¬("THROTTLED" = "BLOCKED") := by decide
  norm_num [execute_mitigation, is_ip_blocked, block_ip, throttle_ip,
    effectiveThresholds, slicePolicy, adaptiveThreshold, dictGet, dictSet,
    initState, sdnAllFail, Bind.bind, Except.bind,
    pure, Except.pure, hdd, hth, hip, hne]

/-- C3 (amended): a THROTTLE decision (threat label, confidence at or
above the effective throttle threshold but below the block threshold)
issues no call to the enforcement gateway for any oracle; `throttle_ip`
simulates success unconditionally, so the throttle record and history
entry are always persisted and the result always reports success. -/
theorem c3_throttle_no_gateway_call (env : SdnOracle) (now : ℚ)
    (s : EngineState) (det : Detection) (flow : FlowInfo) (sliceType ip : String)
    (hip : flow.src_ip = some ip)
    (hvalid : ¬(ip = "unknown" ∨ ip = "0.0.0.0"))
    (habs : dictGet s.blocked_ips ip = none)
    (hddos : strLower (det.prediction.getD "") = "ddos")
    (hlt : ¬det.confidence.getD 0 ≥ (effectiveThresholds sliceType flow.network_load).1)
    (hge : det.confidence.getD 0 ≥ (effectiveThresholds sliceType flow.network_load).2) :
    execute_mitigation env now s det flow sliceType =
      Except.ok (MitigationResult.decision "throttled" ip (det.confidence.getD 0)
          (some "THROTTLED") sliceType
          (effectiveThresholds sliceType flow.network_load).2 true,
        { blocked_ips :=
            (dictSet s.blocked_ips ip
              { timestamp := now
                action := some "throttled"
                throttle_frac := some 0.5
                slice_type := some sliceType
                last_seen := now })
          mitigation_history :=
            (s.mitigation_history ++
              [{ timestamp := now
                 ip := ip
                 confidence := det.confidence.getD 0
                 action := "THROTTLED"
                 slice := sliceType
                 threshold_used := (effectiveThresholds sliceType flow.network_load).2 }]) },
        []) := by
  have hth : strLower "THROTTLED" = "throttled" := by decide
  have hne : ¬("THROTTLED" = "BLOCKED") := by decide
  simp [execute_mitigation, hip, hvalid,
    is_ip_blocked_of_absent now s ip habs, Bind.bind, Except.bind,
    pure, Except.pure, hddos, hlt, hge, throttle_ip, hth, hne]

/-- Witness for C3: a 0.6-confidence threat on the default slice is
throttled with no SDN call even on an all-failing oracle. -/
theorem c3_witness :
    execute_mitigation sdnAllFail 50 blockedState
      { prediction := some "ddos", confidence := some 0.55 }
      { src_ip := some "7.7.7.7" } "eMBB" =
      Except.ok (MitigationResult.decision "throttled" "7.7.7.7" 0.55
          (some "THROTTLED") "eMBB"
          (effectiveThresholds "eMBB" (FlowInfo.network_load
            { src_ip := some "7.7.7.7" })).2 true,
        { blocked_ips :=
            (dictSet blockedState.blocked_ips "7.7.7.7"
              { timestamp := 50
                action := some "throttled"
                throttle_frac := some 0.5
                slice_type := some "eMBB"
                last_seen := 50 })
          mitigation_history :=
            (blockedState.mitigation_history ++
              [{ timestamp := 50
                 ip := "7.7.7.7"
                 confidence := 0.55
                 action := "THROTTLED"
                 slice := "eMBB"
                 threshold_used := (effectiveThresholds "eMBB" (FlowInfo.network_load
                   { src_ip := some "7.7.7.7" })).2 }]) },
        []) :=
  c3_throttle_no_gateway_call sdnAllFail 50 blockedState
    { prediction := some "ddos", confidence := some 0.55 }
    { src_ip := some "7.7.7.7" } "eMBB" "7.7.7.7"
    rfl (by decide) (by rfl) (by decide)
    (by norm_num [effectiveThresholds, slicePolicy, adaptiveThreshold])
    (by norm_num [effectiveThresholds, slicePolicy, adaptiveThreshold])

/-! ### C9 — throttle records break the blocked-record readers -/

/-- A `get_blocked_ips` row over a record missing `reason`,
`confidence` or `packets_blocked` aborts with a `KeyError`. -/
theorem blockedViewRow_error_of_missing (kv : String × BlockedRecord)
    (h : kv.2.reason = none ∨ kv.2.confidence = none ∨ kv.2.packets_blocked = none) :
    ∃ e, blockedViewRow kv = Except.error e := by
  rcases h with h | h | h
  · exact ⟨"KeyError: reason", by simp [blockedViewRow, h, Bind.bind, Except.bind]⟩
  · match hr : kv.2.reason with
    | none => exact ⟨"KeyError: reason", by simp [blockedViewRow, hr, Bind.bind, Except.bind]⟩
    | some r =>
        exact ⟨"KeyError: confidence", by simp [blockedViewRow, hr, h, Bind.bind, Except.bind]⟩
  · match hr : kv.2.reason, hc : kv.2.confidence with
    | none, _ => exact ⟨"KeyError: reason", by simp [blockedViewRow, hr, Bind.bind, Except.bind]⟩
    | some r, none =>
        exact ⟨"KeyError: confidence", by simp [blockedViewRow, hr, hc, Bind.bind, Except.bind]⟩
    | some r, some c =>
        exact ⟨"KeyError: packets_blocked",
          by simp [blockedViewRow, hr, hc, h, Bind.bind, Except.bind]⟩

/-- A row-level `KeyError` anywhere in the map aborts `blockedViewRows`. -/
theorem blockedViewRows_error_of_mem (l : List (String × BlockedRecord))
    (kv : String × BlockedRecord) (hmem : kv ∈ l)
    (h : kv.2.reason = none ∨ kv.2.confidence = none ∨ kv.2.packets_blocked = none) :
    ∃ e, blockedViewRows l = Except.error e := by
  induction l with
  | nil => cases hmem
  | cons hd tl ih =>
      rcases List.mem_cons.mp hmem with heq | htl
      · subst heq
        obtain ⟨e, he⟩ := blockedViewRow_error_of_missing kv h
        exact ⟨e, by simp [blockedViewRows, he, Bind.bind, Except.bind]⟩
      · match hrow : blockedViewRow hd with
        | Except.error e =>
            exact ⟨e, by simp [blockedViewRows, hrow, Bind.bind, Except.bind]⟩
        | Except.ok v =>
            obtain ⟨e, he⟩ := ih htl
            exact ⟨e, by simp [blockedViewRows, hrow, he, Bind.bind, Except.bind]⟩

/-- C9: `throttle_ip` stores a record whose `packets_blocked`, `reason`
and `confidence` keys are absent; consequently the next
`execute_mitigation` call for such an identity raises `KeyError`
instead of returning a result, and `get_blocked_ips` raises `KeyError`
whenever any such record is present in the map. -/
theorem c9_throttle_record_missing_keys :
    (∀ (now : ℚ) (s : EngineState) (ip sliceType : String) (ratio : ℚ),
      ∃ r, dictGet (throttle_ip now s ip sliceType ratio).2.blocked_ips ip = some r ∧
        r.packets_blocked = none ∧ r.reason = none ∧ r.confidence = none)
    ∧ (∀ (env : SdnOracle) (now : ℚ) (s : EngineState) (det : Detection)
        (flow : FlowInfo) (sliceType ip : String) (r : BlockedRecord),
        flow.src_ip = some ip → ¬(ip = "unknown" ∨ ip = "0.0.0.0") →
        dictGet s.blocked_ips ip = some r → r.packets_blocked = none →
        execute_mitigation env now s det flow sliceType =
          Except.error "KeyError: packets_blocked")
    ∧ (∀ (s : EngineState) (kv : String × BlockedRecord), kv ∈ s.blocked_ips →
        kv.2.reason = none →
        ∃ e, get_blocked_ips s = Except.error e) := by
  refine ⟨?_, ?_, ?_⟩
  · intro now s ip sliceType ratio
    refine ⟨{ timestamp := now
              action := some "throttled"
              throttle_frac := some ratio
              slice_type := some sliceType
              last_seen := now }, ?_, rfl, rfl, rfl⟩
    simp [throttle_ip, dictGet_dictSet_self]
  · intro env now s det flow sliceType ip r hip hvalid hrec hp
    exact execute_mitigation_keyerror env now s det flow sliceType ip r hip hvalid hrec hp
  · intro s kv hmem h
    exact blockedViewRows_error_of_mem s.blocked_ips kv hmem (Or.inl h)

/-- Witness for C9: with one throttled record in the map, the next
decision call for that identity raises `KeyError` and so does
`get_blocked_ips`. -/
theorem c9_witness :
    execute_mitigation sdnAllOk 300 throttledState
      { prediction := some "benign", confidence := some 0.2 }
      { src_ip := some "1.2.3.4" } "eMBB" =
      Except.error "KeyError: packets_blocked"
    ∧ ∃ e, get_blocked_ips throttledState = Except.error e := by
  constructor
  · exact c9_throttle_record_missing_keys.2.1 sdnAllOk 300 throttledState
      { prediction := some "benign", confidence := some 0.2 }
      { src_ip := some "1.2.3.4" } "eMBB" "1.2.3.4" throttledRecord
      rfl (by decide) (by rfl) rfl
  · exact c9_throttle_record_missing_keys.2.2 throttledState
      ("1.2.3.4", throttledRecord) (List.Mem.head _) rfl

/-! ### C5 — cache expiration is measured from the last write -/

/-- C5 counterexample: with `ttl = 30`, an entry set at time 0 and hit
at time 20 is gone at time 49 even though only 29 elapsed since that
access — `get` does not refresh the stored access time. -/
theorem c5_counterexample :
    (((PerformanceCache.mk0 ℕ 5000 30).set 0 "k" 7).get 20 "k").1 = some 7
    ∧ (20 : ℚ) - 0 < 30 ∧ (49 : ℚ) - 20 < 30
    ∧ ((((PerformanceCache.mk0 ℕ 5000 30).set 0 "k" 7).get 20 "k").2.get 49 "k").1
        = none := by
  norm_num [PerformanceCache.mk0, PerformanceCache.set, PerformanceCache.get,
    PerformanceCache.oldestKey, dictGet, dictSet, dictDel]

/-- C5 (amended): expiration is measured from the entry's last `set`,
not the last access: a hit within `ttl` of the write returns the value
and leaves the cache state unchanged (the stored access time is not
refreshed), and any later `get` at or past `ttl` from the write evicts
the entry and returns `none`, regardless of the intermediate hit. -/
theorem c5_cache_expires_from_write {V : Type} (c : PerformanceCache V)
    (tset tg1 tg2 : ℚ) (key : String) (v : V)
    (h1 : tg1 - tset < c.ttl) (h2 : ¬ tg2 - tset < c.ttl) :
    (c.set tset key v).get tg1 key = (some v, c.set tset key v)
    ∧ (((c.set tset key v).get tg1 key).2.get tg2 key).1 = none := by
  have httl : (c.set tset key v).ttl = c.ttl := by
    simp only [PerformanceCache.set]
    split
    · cases PerformanceCache.oldestKey c.items <;> rfl
    · rfl
  have hget : dictGet (c.set tset key v).items key = some (v, tset) := by
    simp [PerformanceCache.set, dictGet_dictSet_self]
  have hfst : (c.set tset key v).get tg1 key = (some v, c.set tset key v) := by
    simp [PerformanceCache.get, hget, httl, h1]
  refine ⟨hfst, ?_⟩
  rw [hfst]
  simp [PerformanceCache.get, hget, httl, h2]

/-- Witness for C5: concrete instance of the no-refresh behaviour. -/
theorem c5_witness :
    ((PerformanceCache.mk0 ℕ 100 30).set 5 "k" 7).get 20 "k" =
      (some 7, (PerformanceCache.mk0 ℕ 100 30).set 5 "k" 7)
    ∧ ((((PerformanceCache.mk0 ℕ 100 30).set 5 "k" 7).get 20 "k").2.get 40 "k").1
        = none :=
  c5_cache_expires_from_write (PerformanceCache.mk0 ℕ 100 30) 5 20 40 "k" 7
    (by norm_num [PerformanceCache.mk0]) (by norm_num [PerformanceCache.mk0])

/-! ### C6 — the retrain trigger refires on every sample -/

/-- C6 counterexample: with `retrain_threshold = 2`, the second and the
third `add_feedback` calls both fire the retrain trigger although the
buffer size crossed the threshold upward only once. -/
theorem c6_counterexample :
    (add_feedback ⟨4, 2⟩
      (add_feedback ⟨4, 2⟩ onlineLearningInit [1] 1 1 0.9 0).1 [1] 1 1 0.9 0).2 = true
    ∧ (add_feedback ⟨4, 2⟩
        (add_feedback ⟨4, 2⟩
          (add_feedback ⟨4, 2⟩ onlineLearningInit [1] 1 1 0.9 0).1
          [1] 1 1 0.9 0).1 [1] 1 1 0.9 0).2 = true
    ∧ (add_feedback ⟨4, 2⟩
        (add_feedback ⟨4, 2⟩ onlineLearningInit [1] 1 1 0.9 0).1
        [1] 1 1 0.9 0).1.feedback_buffer.length = 2 := by
  norm_num [add_feedback, onlineLearningInit]

/-- The bounded buffer grows by one per call up to `feedback_window`. -/
theorem add_feedback_buffer_length (cfg : FeedbackConfig) (s : OnlineLearningState)
    (features : List ℚ) (tl pl : ℕ) (conf now : ℚ) :
    (add_feedback cfg s features tl pl conf now).1.feedback_buffer.length =
      min (s.feedback_buffer.length + 1) cfg.feedback_window := by
  simp only [add_feedback]
  split
  · next h =>
      simp only [List.length_drop, List.length_append, List.length_singleton] at h ⊢
      omega
  · next h =>
      simp only [List.length_append, List.length_singleton] at h ⊢
      omega

/-- C6 (amended): the retrain trigger fires on every `add_feedback`
whose resulting buffer size is at or above `retrain_threshold`; in
particular (whenever the threshold is at most the window, as in the
default 500 ≤ 1000) once one call fires, every subsequent call fires
again — it is not limited to one firing per upward crossing. -/
theorem c6_trigger_refires (cfg : FeedbackConfig) (s : OnlineLearningState)
    (features : List ℚ) (tl pl : ℕ) (conf now : ℚ) :
    ((add_feedback cfg s features tl pl conf now).2 = true ↔
      (add_feedback cfg s features tl pl conf now).1.feedback_buffer.length ≥
        cfg.retrain_threshold)
    ∧ (cfg.retrain_threshold ≤ cfg.feedback_window →
       (add_feedback cfg s features tl pl conf now).2 = true →
       ∀ (f2 : List ℚ) (t2 p2 : ℕ) (c2 n2 : ℚ),
         (add_feedback cfg (add_feedback cfg s features tl pl conf now).1
           f2 t2 p2 c2 n2).2 = true) := by
  constructor
  · simp [add_feedback]
  · intro hwin htrig f2 t2 p2 c2 n2
    have h1 : (add_feedback cfg s features tl pl conf now).1.feedback_buffer.length ≥
        cfg.retrain_threshold := by
      simpa [add_feedback] using htrig
    have h2 := add_feedback_buffer_length cfg
      (add_feedback cfg s features tl pl conf now).1 f2 t2 p2 c2 n2
    have hiff : (add_feedback cfg (add_feedback cfg s features tl pl conf now).1
        f2 t2 p2 c2 n2).2 = true ↔
        (add_feedback cfg (add_feedback cfg s features tl pl conf now).1
          f2 t2 p2 c2 n2).1.feedback_buffer.length ≥ cfg.retrain_threshold := by
      simp [add_feedback]
    rw [hiff, h2]
    omega

/-- Witness for C6: a concrete refire — the call after a firing call
fires again under the default-shaped configuration. -/
theorem c6_witness :
    (add_feedback ⟨4, 2⟩
      (add_feedback ⟨4, 2⟩
        (add_feedback ⟨4, 2⟩ onlineLearningInit [2] 1 1 0.8 0).1
        [2] 1 1 0.8 0).1 [2] 1 1 0.8 0).2 = true :=
  (c6_trigger_refires ⟨4, 2⟩
      (add_feedback ⟨4, 2⟩ onlineLearningInit [2] 1 1 0.8 0).1
      [2] 1 1 0.8 0).2 (by norm_num)
    (by norm_num [add_feedback, onlineLearningInit]) [2] 1 1 0.8 0

/-! ### C7 — the history cap is enforced only by the periodic sweep -/

theorem monitorStep_appends (s : EngineState)
    (habs : dictGet s.blocked_ips "9.9.9.9" = none) :
    monitorStep s =
      { s with mitigation_history := s.mitigation_history ++
          [{ timestamp := 0
             ip := "9.9.9.9"
             confidence := 0.5
             action := "MONITOR"
             slice := "eMBB"
             threshold_used := 0.5 }] } := by
  have hb : ¬ strLower "benign" = "ddos" := by decide
  have hip : ¬("9.9.9.9" = "unknown" ∨ "9.9.9.9" = "0.0.0.0") := by decide
  have hne : ¬("MONITOR" = "BLOCKED") := by decide
  norm_num [monitorStep, execute_mitigation, is_ip_blocked_of_absent 0 s _ habs,
    effectiveThresholds, slicePolicy, adaptiveThreshold,
    Bind.bind, Except.bind, pure, Except.pure, hb, hip, hne]

theorem monitorStep_iterate (n : ℕ) :
    (monitorStep^[n] initState).blocked_ips = [] ∧
    (monitorStep^[n] initState).mitigation_history.length = n := by
  induction n with
  | zero => simp [initState]
  | succ k ih =>
      rw [Function.iterate_succ_apply']
      have habs : dictGet (monitorStep^[k] initState).blocked_ips "9.9.9.9" = none := by
        rw [ih.1]; rfl
      rw [monitorStep_appends _ habs]
      simp [ih.1, ih.2]

/-- C7 counterexample: after `max_history + 1` history-producing
decision calls all `max_history + 1` entries are still present — the
per-event path never truncates the log, so the cap does not hold at
insertion time. -/
theorem c7_counterexample :
    (monitorStep^[maxHistory + 1] initState).mitigation_history.length = maxHistory + 1
    ∧ (monitorStep^[maxHistory + 1] initState).mitigation_history.length ≠ maxHistory := by
  have h := (monitorStep_iterate (maxHistory + 1)).2
  exact ⟨h, by rw [h]; omega⟩

theorem unblock_ip_history (env : SdnOracle) (s : EngineState) (ip : String) :
    (unblock_ip env s ip).2.1.mitigation_history = s.mitigation_history := by
  unfold unblock_ip
  match h : dictGet s.blocked_ips ip with
  | none => rfl
  | some r =>
      by_cases ha : r.action.getD "blocked" = "blocked"
      · cases henv : env.unblockOk ip <;> simp [ha, henv]
      · simp [ha]

theorem cleanup_fold_history (env : SdnOracle) (l : List String)
    (acc : EngineState × List SdnCall) :
    (l.foldl
      (fun acc ip =>
        let (_, s', calls) := unblock_ip env acc.1 ip
        (s', acc.2 ++ calls))
      acc).1.mitigation_history = acc.1.mitigation_history := by
  induction l generalizing acc with
  | nil => rfl
  | cons hd tl ih =>
      rw [List.foldl_cons, ih]
      exact unblock_ip_history env acc.1 hd

/-- C7 (amended): the `max_history` cap is enforced only by the
periodic `_cleanup_expired_blocks` sweep, not on insert: whenever the
log holds `max_history + K` entries (`K ≥ 1`), the sweep truncates it
to exactly its most recent `max_history` entries (the oldest `K` are
dropped), while between sweeps all `max_history + K` entries remain
(see the counterexample for the insertion path). -/
theorem c7_history_cap_only_on_cleanup (env : SdnOracle) (now : ℚ)
    (s : EngineState) (K : ℕ) (hk : 1 ≤ K)
    (hlen : s.mitigation_history.length = maxHistory + K) :
    (cleanup_expired_blocks env now s).1.mitigation_history =
      s.mitigation_history.drop K
    ∧ (cleanup_expired_blocks env now s).1.mitigation_history.length = maxHistory := by
  have hfold :
      ((s.blocked_ips.filter
        (fun kv => decide (now - kv.2.timestamp > blockDuration) && autoUnblock)).map
          Prod.fst).foldl
        (fun acc ip =>
          let (_, s', calls) := unblock_ip env acc.1 ip
          (s', acc.2 ++ calls))
        (s, ([] : List SdnCall)) |>.1.mitigation_history = s.mitigation_history :=
    cleanup_fold_history env _ (s, [])
  have hgt : s.mitigation_history.length > maxHistory := by omega
  have hh : (cleanup_expired_blocks env now s).1.mitigation_history =
      if s.mitigation_history.length > maxHistory then
        s.mitigation_history.drop (s.mitigation_history.length - maxHistory)
      else s.mitigation_history := by
    simp only [cleanup_expired_blocks, hfold]
  rw [hh, if_pos hgt]
  have hK : s.mitigation_history.length - maxHistory = K := by omega
  rw [hK]
  refine ⟨rfl, ?_⟩
  rw [List.length_drop]
  omega

/-- Witness for C7: a log of `max_history + 1` identical entries is cut
back to exactly `max_history` entries by one sweep. -/
theorem c7_witness :
    (cleanup_expired_blocks sdnAllOk 0
      { blocked_ips := []
        mitigation_history := List.replicate (maxHistory + 1)
          { timestamp := 0
            ip := "8.8.8.8"
            confidence := 0.9
            action := "MONITOR"
            slice := "eMBB"
            threshold_used := 0.5 } }).1.mitigation_history.length = maxHistory :=
  (c7_history_cap_only_on_cleanup sdnAllOk 0
    { blocked_ips := []
      mitigation_history := List.replicate (maxHistory + 1)
        { timestamp := 0
          ip := "8.8.8.8"
          confidence := 0.9
          action := "MONITOR"
          slice := "eMBB"
          threshold_used := 0.5 } } 1 (by omega) (by simp)).2

/-! ### C8 — explanation normalization against the running partial sum -/

theorem sumContribs_append (l1 l2 : List Contribution) :
    sumContribs (l1 ++ l2) = sumContribs l1 + sumContribs l2 := by
  simp [sumContribs]

theorem sumContribs_cons (x : Contribution) (l : List Contribution) :
    sumContribs (x :: l) = x.contribution + sumContribs l := by
  simp [sumContribs]

/-- The accumulator-carrying loop equals the sum-carrying loop started
at the accumulated contribution total. -/
theorem buildContributions_eq_sum (imp : String → Option ℚ)
    (pairs : List (String × ℚ)) (acc : List Contribution) :
    buildContributions imp acc pairs =
      acc ++ buildContributionsSum imp (sumContribs acc) pairs := by
  induction pairs generalizing acc with
  | nil => simp [buildContributions, buildContributionsSum]
  | cons hd tl ih =>
      obtain ⟨name, v⟩ := hd
      rw [buildContributions, buildContributionsSum, ih, sumContribs_append]
      simp [sumContribs]

theorem buildContributionsSum_normalized (imp : String → Option ℚ)
    (pairs : List (String × ℚ)) (s0 : ℚ) (i : ℕ) (c : Contribution)
    (h : (buildContributionsSum imp s0 pairs)[i]? = some c) :
    c.normalized_contribution =
      c.contribution /
        max (s0 + sumContribs ((buildContributionsSum imp s0 pairs).take (i + 1)))
          0.01 := by
  induction pairs generalizing s0 i with
  | nil => simp [buildContributionsSum] at h
  | cons hd tl ih =>
      obtain ⟨name, v⟩ := hd
      match i with
      | 0 =>
          rw [buildContributionsSum] at h ⊢
          simp only [List.getElem?_cons_zero, Option.some.injEq] at h
          subst h
          simp [sumContribs]
      | Nat.succ j =>
          rw [buildContributionsSum] at h ⊢
          simp only [List.getElem?_cons_succ] at h
          rw [ih (s0 + rawContribution ((imp name).getD 0.01) name v) j h,
            List.take_succ_cons, sumContribs_cons, add_assoc]

/-- C8: in the `contributions` list built by `explain_prediction`
(processing order, before the final sort), the normalized contribution
of the element at index `i` equals its contribution divided by
`max(partial sum of contributions up to and including index i, 0.01)`
— normalization against the running partial sum, not the final total.
The whole output is a pure function of the feature names, the scaled
feature vector and the importance table, hence deterministic on
identical inputs. -/
theorem c8_normalized_against_partial_sum (imp : String → Option ℚ)
    (featureNames : List String) (featuresScaled : List ℚ) (i : ℕ) (c : Contribution)
    (h : (explainContributions imp featureNames featuresScaled)[i]? = some c) :
    c.normalized_contribution =
      c.contribution /
        max (sumContribs
          ((explainContributions imp featureNames featuresScaled).take (i + 1)))
          0.01 := by
  have heq : explainContributions imp featureNames featuresScaled =
      buildContributionsSum imp 0 (featureNames.zip featuresScaled) := by
    rw [explainContributions, buildContributions_eq_sum]
    simp [sumContribs]
  rw [heq] at h ⊢
  have := buildContributionsSum_normalized imp (featureNames.zip featuresScaled) 0 i c h
  rw [this, zero_add]

/-! ### C4 — rate tracking over monotone timestamp sequences -/

theorem dropWhile_eq_filter_of_sorted (w ts : ℚ) (l : List ℚ)
    (hl : l.Sorted (· ≤ ·)) :
    l.dropWhile (fun t0 => decide (ts - t0 > w)) =
      l.filter (fun t0 => decide (ts - t0 ≤ w)) := by
  induction l with
  | nil => rfl
  | cons x xs ih =>
      have hx : ∀ y ∈ xs, x ≤ y := (List.pairwise_cons.mp hl).1
      have hxs : xs.Sorted (· ≤ ·) := (List.pairwise_cons.mp hl).2
      by_cases hcond : ts - x > w
      · have h1 : ¬ ts - x ≤ w := not_le.mpr hcond
        simp only [List.dropWhile_cons, List.filter_cons, decide_eq_true_eq,
          hcond, if_pos, h1, decide_eq_false h1, Bool.false_eq_true, if_false]
        exact ih hxs
      · have h1 : ts - x ≤ w := not_lt.mp hcond
        simp only [List.dropWhile_cons, List.filter_cons, decide_eq_true_eq,
          hcond, if_false, h1, decide_eq_true h1, if_true]
        congr 1
        symm
        refine List.filter_eq_self.mpr fun y hy => ?_
        have hxy : ts - y ≤ ts - x := by linarith [hx y hy]
        simpa using le_trans hxy h1

theorem dropWhile_append_singleton {α : Type} (p : α → Bool) (l : List α) (a : α)
    (ha : p a = false) :
    (l ++ [a]).dropWhile p = l.dropWhile p ++ [a] := by
  induction l with
  | nil => simp [List.dropWhile_cons, ha]
  | cons x xs ih =>
      by_cases hx : p x = true
      · simpa [List.dropWhile_cons, hx] using ih
      · simp [List.dropWhile_cons, hx]

theorem RateTracker.add_window (tr : RateTracker) (ip : String) (ts : ℚ) :
    (tr.add ip ts).window = tr.window := rfl

theorem RateTracker.addAll_window (ip : String) (l : List ℚ) (tr : RateTracker) :
    (tr.addAll ip l).window = tr.window := by
  induction l generalizing tr with
  | nil => rfl
  | cons x xs ih => exact ih (tr.add ip x)

theorem RateTracker.deq_add (tr : RateTracker) (ip : String) (ts : ℚ) :
    (tr.add ip ts).deq ip =
      (tr.deq ip ++ [ts]).dropWhile (fun t0 => decide (ts - t0 > tr.window)) := by
  simp [RateTracker.add, RateTracker.deq, dictGet_dictSet_self]

theorem RateTracker.deq_add_other (tr : RateTracker) (ip ip' : String) (ts : ℚ)
    (h : ip ≠ ip') :
    (tr.add ip ts).deq ip' = tr.deq ip' := by
  simp [RateTracker.add, RateTracker.deq, dictGet_dictSet_ne _ _ _ _ h]

theorem RateTracker.addAll_deq_other (ip ip' : String) (l : List ℚ)
    (tr : RateTracker) (h : ip ≠ ip') :
    (tr.addAll ip l).deq ip' = tr.deq ip' := by
  induction l generalizing tr with
  | nil => rfl
  | cons x xs ih =>
      have hstep : tr.addAll ip (x :: xs) = (tr.add ip x).addAll ip xs := by
        simp [RateTracker.addAll]
      rw [hstep, ih (tr.add ip x), RateTracker.deq_add_other tr ip ip' x h]

theorem winFilter_concat (w ts : ℚ) (xs : List ℚ) (hw : 0 ≤ w) :
    winFilter w (xs ++ [ts]) = List.filter (fun t0 => decide (ts - t0 ≤ w)) xs ++ [ts] := by
  simp only [winFilter, List.getLast?_concat]
  rw [List.filter_append]
  congr 1
  simp only [List.filter_cons, List.filter_nil, decide_eq_true_eq, sub_self]
  rw [if_pos (by linarith)]

theorem specWindowCount_concat (w ts : ℚ) (xs : List ℚ) (hw : 0 ≤ w)
    (hle : ∀ x ∈ xs, x ≤ ts) :
    specWindowCount w (xs ++ [ts]) =
      (List.filter (fun t0 => decide (ts - t0 ≤ w)) xs).length + 1 := by
  simp only [specWindowCount, List.getLast?_concat]
  rw [List.filter_append, List.length_append]
  congr 1
  · congr 1
    refine List.filter_congr fun x hx => ?_
    have hxts : x ≤ ts := hle x hx
    by_cases hc : ts - x ≤ w
    · simp [hc, hxts]
    · simp [hc]
  · simp [List.filter_cons, sub_self, hw]

/-- After feeding a nondecreasing timestamp sequence into a fresh
tracker, the retained deque for the identity is exactly the recorded
sequence pruned against its final timestamp. -/
theorem RateTracker.addAll_deq (w : ℚ) (hw : 0 ≤ w) (ip : String) (l : List ℚ)
    (hl : l.Sorted (· ≤ ·)) :
    ((RateTracker.mk0 w).addAll ip l).deq ip = winFilter w l := by
  induction l using List.reverseRecOn with
  | nil => rfl
  | append_singleton xs ts ih =>
      have hsplit := List.pairwise_append.mp hl
      have hxs : xs.Sorted (· ≤ ·) := hsplit.1
      have hle : ∀ x ∈ xs, x ≤ ts := fun x hx => hsplit.2.2 x hx ts (List.mem_singleton_self ts)
      have hstep : (RateTracker.mk0 w).addAll ip (xs ++ [ts]) =
          ((RateTracker.mk0 w).addAll ip xs).add ip ts := by
        simp [RateTracker.addAll, List.foldl_append]
      have hwin : ((RateTracker.mk0 w).addAll ip xs).window = w :=
        RateTracker.addAll_window ip xs (RateTracker.mk0 w)
      rw [hstep, RateTracker.deq_add, hwin, ih hxs,
        dropWhile_append_singleton (fun t0 => decide (ts - t0 > w)) (winFilter w xs) ts
          (by simp only [decide_eq_false_iff_not, not_lt, sub_self]; linarith)]
      have hsortedWin : (winFilter w xs).Sorted (· ≤ ·) := by
        rw [winFilter]
        match xs.getLast? with
        | none => exact List.Pairwise.nil
        | some last => exact List.Pairwise.filter _ hxs
      rw [dropWhile_eq_filter_of_sorted w ts _ hsortedWin]
      rw [winFilter_concat w ts xs hw]
      congr 1
      rcases hxl : xs.getLast? with _ | last
      · have hnil : xs = [] := List.getLast?_eq_none_iff.mp hxl
        subst hnil
        simp [winFilter]
      · have hlmem : last ∈ xs := List.mem_of_getLast?_eq_some hxl
        have hlle : last ≤ ts := hle last hlmem
        simp only [winFilter, hxl, List.filter_filter]
        refine List.filter_congr fun x hx => ?_
        by_cases hc : ts - x ≤ w
        · have hc2 : last - x ≤ w := le_trans (by linarith) hc
          simp [hc, hc2]
        · simp [hc]

/-- C4 (amended): for a nonnegative window and a nondecreasing
sequence of timestamps recorded for one identity on a fresh tracker,
`pps` equals the count of recorded timestamps within the trailing
window `[last - W, last]` of the latest recorded timestamp, divided by
`W` (this holds after each insert, every prefix of a nondecreasing
sequence being nondecreasing); identities never recorded rate at `0`.
For out-of-order timestamps the equality fails (see the
counterexample): pruning uses the most recently recorded timestamp as
reference and only pops from the front of the deque. -/
theorem c4_rate_correct_monotone (w : ℚ) (hw : 0 ≤ w) (ip : String) (l : List ℚ)
    (hl : l.Sorted (· ≤ ·)) :
    ((RateTracker.mk0 w).addAll ip l).pps ip = (specWindowCount w l : ℚ) / w
    ∧ ∀ ip', ip' ≠ ip → ((RateTracker.mk0 w).addAll ip l).pps ip' = 0 := by
  constructor
  · rcases List.eq_nil_or_concat l with rfl | ⟨xs, ts, rfl⟩
    · simp [RateTracker.addAll, RateTracker.pps, RateTracker.deq, RateTracker.mk0,
        dictGet, specWindowCount]
    · simp only [List.concat_eq_append] at hl ⊢
      have hdeq := RateTracker.addAll_deq w hw ip (xs ++ [ts]) hl
      have hwin : ((RateTracker.mk0 w).addAll ip (xs ++ [ts])).window = w :=
        RateTracker.addAll_window _ _ _
      have hsplit := List.pairwise_append.mp hl
      have hle : ∀ x ∈ xs, x ≤ ts := fun x hx =>
        hsplit.2.2 x hx ts (List.mem_singleton_self ts)
      rw [RateTracker.pps, hdeq, hwin, winFilter_concat w ts xs hw,
        specWindowCount_concat w ts xs hw hle]
      have hne : ¬(List.filter (fun t0 => decide (ts - t0 ≤ w)) xs ++ [ts]).isEmpty := by
        simp
      rw [if_neg hne]
      rw [List.length_append]
      norm_num
  · intro ip' hne
    have hdeq : ((RateTracker.mk0 w).addAll ip l).deq ip' = [] := by
      rw [RateTracker.addAll_deq_other ip ip' l (RateTracker.mk0 w) (fun h => hne h.symm)]
      rfl
    rw [RateTracker.pps, hdeq]
    rfl

/-- C4 counterexample: the out-of-order sequence `[10, 1]` with window
`1` keeps both timestamps in the deque (pruning only pops stale
entries from the front, and `10` sits behind the fresh front `1`), so
`pps` reports `2` while only one recorded timestamp lies within the
trailing window of the latest recorded timestamp. -/
theorem c4_counterexample :
    ((RateTracker.mk0 1).addAll "a" [10, 1]).pps "a" = 2
    ∧ (specWindowCount 1 [10, 1] : ℚ) / 1 = 1
    ∧ ((RateTracker.mk0 1).addAll "a" [10, 1]).pps "a" ≠
        (specWindowCount 1 [10, 1] : ℚ) / 1 := by
  have h1 : ((RateTracker.mk0 1).addAll "a" [10, 1]).pps "a" = 2 := by
    norm_num [RateTracker.addAll, RateTracker.add, RateTracker.mk0, RateTracker.deq,
      RateTracker.pps, dictGet, dictSet, List.dropWhile]
  have h2 : (specWindowCount 1 [10, 1] : ℚ) / 1 = 1 := by
    norm_num [specWindowCount, List.getLast?, List.filter]
  exact ⟨h1, h2, by rw [h1, h2]; norm_num⟩

/-- Witness for C4: the nondecreasing sequence `[1, 2]` with window `1`
rates at `specWindowCount / 1` and an unrecorded identity rates `0`. -/
theorem c4_witness :
    ((RateTracker.mk0 1).addAll "a" [1, 2]).pps "a" =
      (specWindowCount 1 [1, 2] : ℚ) / 1
    ∧ ∀ ip', ip' ≠ "a" → ((RateTracker.mk0 1).addAll "a" [1, 2]).pps ip' = 0 :=
  c4_rate_correct_monotone 1 (by norm_num) "a" [1, 2]
    (by simp [List.sorted_cons])

/-- Witness for C8: in the two-feature run over names `["a", "b"]` with
unit values and no importance table, the second processed contribution
(`1/1000`) is normalized by the partial sum of both contributions
clamped at `0.01`, giving `1/10`. -/
theorem c8_witness :
    (1 : ℚ) / 10 =
      (1 : ℚ) / 1000 /
        max (sumContribs
          ((explainContributions (fun _ => none) ["a", "b"] [1, 1]).take 2)) 0.01 := by
  have ha : strContains (strLower "a") "packet" = false := by decide
  have ha2 : strContains (strLower "a") "rate" = false := by decide
  have ha3 : strContains (strLower "a") "entropy" = false := by decide
  have hb : strContains (strLower "b") "packet" = false := by decide
  have hb2 : strContains (strLower "b") "rate" = false := by decide
  have hb3 : strContains (strLower "b") "entropy" = false := by decide
  have h : (explainContributions (fun _ => none) ["a", "b"] [1, 1])[1]? =
      some { feature := "b"
             value := 1
             importance := 1/100
             contribution := 1/1000
             normalized_contribution := 1/10 } := by
    norm_num [explainContributions, buildContributions, rawContribution, sumContribs,
      ha, ha2, ha3, hb, hb2, hb3, List.zip]
  have := c8_normalized_against_partial_sum (fun _ => none) ["a", "b"] [1, 1] 1
    { feature := "b"
      value := 1
      importance := 1/100
      contribution := 1/1000
      normalized_contribution := 1/10 } h
  simpa using this

end Sentinel
